import Mathlib

/-!
A shallow embedding in Lean 4 of the `atomrss` feed-parsing library
(modules `atomrss.exceptions`, `atomrss.atom`, `atomrss.rss` and
`atomrss.feed`), together with theorems checking the library's
natural-language specification against the code.

External collaborators of the library are modelled as explicit data or
function parameters:
  * the XML element-tree provider (lxml) is modelled by the `Element` and
    `Tree` types below: a tree of named, namespaced elements with
    attributes, text content and source line numbers;
  * `dateutil.parser.parse` (date-string parsing), `html.unescape`
    (entity decoding), `email.utils.parseaddr` and Python's `int()`
    conversion are modelled as fields of an `Env` record, since the spec
    treats them as given capabilities;
  * the structlog logging collaborator is modelled by threading a list of
    emitted structured events (`Log`) through the parsers;
  * Python exceptions are modelled by the `PyErr` error type of an
    `Except`-based parsing monad `PM`.  Besides the library's own
    `ParserError` hierarchy it contains the Python-level exceptions the
    source can raise (`TypeError`, `UnboundLocalError`, `AttributeError`),
    which are not caught by any `except AtomParserError` handler.
-/

namespace AtomRSS

/-- A value appearing in a structured log event: a string, an integer
(source line numbers) or Python `None`. -/
inductive LogValue : Type where
  | str (s : String)
  | nat (n : Nat)
  | null
  deriving DecidableEq, Repr

def LogValue.ofLineno : Option Nat → LogValue
  | some n => .nat n
  | none => .null

def LogValue.ofOptStr : Option String → LogValue
  | some s => .str s
  | none => .null

/-- The keyword arguments of a structured log call, as an ordered
association list mirroring a Python `dict` (insertion ordered). -/
abbrev Kwargs := List (String × LogValue)

/-- `d[k]`, as an `Option`. -/
def dictGet (d : Kwargs) (k : String) : Option LogValue :=
  (d.find? (fun p => p.1 == k)).map (fun p => p.2)

/-- `d[k] = v`: replaces the value in place when the key is present,
appends the pair at the end otherwise (Python dict insertion order). -/
def dictSet (d : Kwargs) (k : String) (v : LogValue) : Kwargs :=
  if d.any (fun p => p.1 == k) then
    d.map (fun p => if p.1 == k then (k, v) else p)
  else
    d ++ [(k, v)]

/-- One structured log event.  `positional` records extra positional
arguments of the `logger.error` call (nonempty only for the source's
`logger.error(*err.to_log_kwargs())` calls, which splat the keys of the
kwargs dict as positional arguments); `entries` is the bound logger
context followed by the keyword arguments of the call, the event name
stored under the key `event`. -/
structure Log where
  positional : List String
  entries : Kwargs
  deriving DecidableEq, Repr

/-- An lxml qualified name: an optional namespace URI and a local name.
lxml renders it as the string `\x7bns\x7dlocalname` (or the bare local
name when there is no namespace); `toStr` below produces that rendering
for error messages. -/
structure QName where
  ns : Option String
  localname : String
  deriving DecidableEq, Repr

def QName.toStr (q : QName) : String :=
  match q.ns with
  | some n => "\x7b" ++ n ++ "\x7d" ++ q.localname
  | none => q.localname

/-- An XML element: tag, attributes (ordered), text content (`None`
possible), source line number (`None` for programmatically built
elements) and child elements. -/
inductive Element : Type where
  | mk (tag : QName) (attrib : List (String × String)) (text : Option String)
       (sourceline : Option Nat) (children : List Element)

def Element.tag : Element → QName
  | .mk t _ _ _ _ => t

def Element.attrib : Element → List (String × String)
  | .mk _ a _ _ _ => a

def Element.text : Element → Option String
  | .mk _ _ t _ _ => t

def Element.sourceline : Element → Option Nat
  | .mk _ _ _ s _ => s

def Element.children : Element → List Element
  | .mk _ _ _ _ c => c

/-- `element.find(name)`: the first direct child with the given tag. -/
def Element.find (e : Element) (name : QName) : Option Element :=
  e.children.find? (fun c => c.tag == name)

/-- `element.findall(name)`: all direct children with the given tag, in
document order. -/
def Element.findall (e : Element) (name : QName) : List Element :=
  e.children.filter (fun c => c.tag == name)

/-- `element.attrib.get(name)` / `element.attrib[name]` (as an `Option`). -/
def Element.attr (e : Element) (name : String) : Option String :=
  (e.attrib.find? (fun p => p.1 == name)).map (fun p => p.2)

/-- An lxml element tree: the root element, the values of the root's
declared namespace map (`root.nsmap.values()`, in insertion order) and
the document URL (`tree.docinfo.URL`). -/
structure Tree where
  root : Element
  nsmapValues : List String
  url : Option String

/-- The external capabilities the parsers call into:
`html.unescape`, `dateutil.parser.parse` (returning `none` exactly when
it would raise `ValueError`/`OverflowError`; timestamps abstracted as
`Nat`), `email.utils.parseaddr` (realname, email address) and Python's
`int()` string conversion (`none` exactly when it would raise
`ValueError`). -/
structure Env where
  unescape : String → String
  dateParse : String → Option Nat
  parseaddr : String → String × String
  pyInt : String → Option Int

/-- The `atomrss.atom` exception hierarchy (all subclasses of
`AtomParserError`).  `invalidRoot` is a subclass of `missingElement` in
the source; handlers that catch `MissingElement` therefore also catch
`invalidRoot`. -/
inductive AtomExc : Type where
  | missingElement (element : String) (lineno : Option Nat)
  | invalidRoot (element : String) (lineno : Option Nat)
  | invalidDate (date : String) (lineno : Option Nat)
  | notImplementedError (feature : String) (lineno : Option Nat)
  deriving DecidableEq, Repr

/-- The `atomrss.rss` exception hierarchy (all subclasses of
`RSSParserError`).  `invalidRoot` subclasses `missingElement`;
`missingAttribute` and `versionNotSupported` are siblings of
`missingElement`, not subclasses of `invalidRoot`. -/
inductive RssExc : Type where
  | missingElement (element : String) (lineno : Option Nat)
  | invalidRoot (element : String) (lineno : Option Nat)
  | missingAttribute (message : String) (lineno : Option Nat)
  | versionNotSupported (version : String)
  deriving DecidableEq, Repr

/-- Every exception the embedded code can raise: the two library
hierarchies, `feed.NotAFeed`, and the Python built-in exceptions that
escape the library's own handlers.  `notAFeed` stores the tree's
`docinfo.URL`; when that is `None` the source passes the tree object
itself, which the model records as the `none` case. -/
inductive PyErr : Type where
  | atom (e : AtomExc)
  | rss (e : RssExc)
  | notAFeed (source : Option String)
  | typeError
  | unboundLocalError (name : String)
  | attributeError (name : String)
  deriving DecidableEq, Repr

deriving instance DecidableEq for Except

/-- The parsing monad: state-threaded structured logs over exceptions. -/
def PM (α : Type) : Type := List Log → Except PyErr (α × List Log)

instance : Monad PM where
  pure a := fun logs => .ok (a, logs)
  bind x f := fun logs =>
    match x logs with
    | .error e => .error e
    | .ok (a, logs2) => f a logs2

/-- `raise e`. -/
def PM.throw (e : PyErr) : PM α := fun _ => .error e

/-- `logger.error(...)`: append one structured event. -/
def PM.log (l : Log) : PM Unit := fun logs => .ok ((), logs ++ [l])

/-- A `try` block: turn an exception into a value so the caller can
model the `except` clauses, re-raising what they do not catch.  (Logs
emitted inside the block are kept only on success; in the source no
guarded block logs before raising, so nothing is lost.) -/
def pmTry (x : PM α) : PM (Except PyErr α) := fun logs =>
  match x logs with
  | .ok (a, logs2) => .ok (.ok a, logs2)
  | .error e => .ok (.error e, logs)

/-- `list(map(f, xs))` for an effectful `f`, evaluated left to right. -/
def mapPM (f : α → PM β) : List α → PM (List β)
  | [] => pure []
  | x :: xs => do
      let y ← f x
      let ys ← mapPM f xs
      pure (y :: ys)

/-- `AtomParserError.to_log_kwargs` and its overrides, as an ordered
kwargs dict (`event` first, then the kind-specific key, then `lineno`).
`InvalidRoot` inherits `MissingElement.to_log_kwargs`. -/
def AtomExc.toLogKwargs : AtomExc → Kwargs
  | .missingElement el lineno =>
      [("event", .str "missing-element"), ("element", .str el),
       ("lineno", .ofLineno lineno)]
  | .invalidRoot el lineno =>
      [("event", .str "missing-element"), ("element", .str el),
       ("lineno", .ofLineno lineno)]
  | .invalidDate d lineno =>
      [("event", .str "invalid-date"), ("date", .str d),
       ("lineno", .ofLineno lineno)]
  | .notImplementedError f lineno =>
      [("event", .str "not-implemented-error"), ("feature", .str f),
       ("lineno", .ofLineno lineno)]

/-- The source's `self.logger.error(*err.to_log_kwargs())` calls splat
the KEYS of the kwargs dict as positional arguments: the first key
becomes the event string, the remaining keys the positional arguments. -/
def AtomExc.splatLog (logger : Kwargs) (e : AtomExc) : Log :=
  let keys := e.toLogKwargs.map (fun p => p.1)
  ⟨keys.tail, logger ++ [("event", .str (keys.headD ""))]⟩

namespace atom

def ATOM_NAMESPACE : String := "http://www.w3.org/2005/atom"

/-- `atom.Text` (namedtuple): a text construct. -/
structure Text where
  type : String
  value : Option String
  deriving DecidableEq, Repr

/-- `atom.Person` (namedtuple). -/
structure Person where
  name : Option String
  uri : Option String
  email : Option String
  deriving DecidableEq, Repr

/-- `atom.Link`.  Equality is structural over all six fields; `length`
is the raw attribute string, never converted. -/
structure Link where
  href : String
  rel : String
  type : Option String
  hreflang : Option String
  title : Option String
  length : Option String
  deriving DecidableEq, Repr

/-- `atom.Content` (namedtuple). -/
structure Content where
  type : String
  src : Option String
  value : Option String
  deriving DecidableEq, Repr

/-- `atom.Entry`. -/
structure Entry where
  id : Option String
  title : Text
  updated : Nat
  authors : List Person
  contributors : List Person
  published : Option Nat
  summary : Option Text
  links : List Link
  content : Option Content
  deriving DecidableEq, Repr

/-- `atom.Feed`. -/
structure Feed where
  id : Option String
  title : Text
  updated : Nat
  entries : List Entry
  authors : List Person
  contributors : List Person
  subtitle : Option Text
  links : List Link
  deriving DecidableEq, Repr

/-- `_Parser.create_name`: qualify a local name with the working
namespace. -/
def create_name (ns name : String) : QName := ⟨some ns, name⟩

/-- `_Parser._get_element_text`: the text of the named child, raising
`MissingElement` when the child is absent. -/
def _get_element_text (ns : String) (tree : Element) (name : String) :
    PM (Option String) :=
  match tree.find (create_name ns name) with
  | none =>
      PM.throw (.atom (.missingElement ("<atom:" ++ name ++ ">")
        tree.sourceline))
  | some el => pure el.text

/-- `_Parser.parse_id`. -/
def parse_id (ns : String) (tree : Element) : PM (Option String) :=
  _get_element_text ns tree "id"

/-- `_Parser.parse_text_construct`.  `type` defaults to `text`; `xhtml`
raises `NotImplementedError`; `html` entity-unescapes the text content
(`html.unescape(None)` would raise `TypeError`). -/
def parse_text_construct (env : Env) (element : Element) : PM Text :=
  let type := (element.attr "type").getD "text"
  if type == "xhtml" then
    PM.throw (.atom (.notImplementedError "xhtml text construct"
      element.sourceline))
  else if type == "html" then
    match element.text with
    | none => PM.throw .typeError
    | some s => pure ⟨type, some (env.unescape s)⟩
  else
    pure ⟨type, element.text⟩

/-- `_Parser.parse_title`. -/
def parse_title (env : Env) (ns : String) (tree : Element) : PM Text :=
  match tree.find (create_name ns "title") with
  | none =>
      PM.throw (.atom (.missingElement "<atom:title>" tree.sourceline))
  | some el => parse_text_construct env el

/-- `_Parser.parse_updated`.  A missing element raises `MissingElement`;
`dateutil.parser.parse(None)` raises `TypeError` (text content absent);
a found-but-unparseable date string raises `InvalidDate`. -/
def parse_updated (env : Env) (ns : String) (tree : Element) : PM Nat :=
  match tree.find (create_name ns "updated") with
  | none =>
      PM.throw (.atom (.missingElement "<atom:updated>" tree.sourceline))
  | some el =>
    match el.text with
    | none => PM.throw .typeError
    | some s =>
      match env.dateParse s with
      | some t => pure t
      | none => PM.throw (.atom (.invalidDate s el.sourceline))

/-- `_Parser.parse_date_construct`. -/
def parse_date_construct (env : Env) (element : Element) : PM Nat :=
  match element.text with
  | none => PM.throw .typeError
  | some s =>
    match env.dateParse s with
    | some t => pure t
    | none => PM.throw (.atom (.invalidDate s element.sourceline))

/-- `_Parser.parse_person_construct`.  `name` is read with no handler;
`uri` and `email` catch `MissingElement` (and thereby its subclass
`InvalidRoot`) and fall back to `None`. -/
def parse_person_construct (ns : String) (element : Element) : PM Person := do
  let name ← _get_element_text ns element "name"
  let uri ← (do
    match ← pmTry (_get_element_text ns element "uri") with
    | .ok v => pure v
    | .error (.atom (.missingElement _ _)) => pure none
    | .error (.atom (.invalidRoot _ _)) => pure none
    | .error e => PM.throw e)
  let email ← (do
    match ← pmTry (_get_element_text ns element "email") with
    | .ok v => pure v
    | .error (.atom (.missingElement _ _)) => pure none
    | .error (.atom (.invalidRoot _ _)) => pure none
    | .error e => PM.throw e)
  pure ⟨name, uri, email⟩

/-- `_Parser.parse_authors`: `list(filter(None, map(parse_person_construct,
findall)))`.  The filter drops nothing, since a three-field namedtuple is
always truthy and `parse_person_construct` never returns `None`; an
exception raised for any child propagates out of the `map`. -/
def parse_authors (ns : String) (tree : Element) : PM (List Person) := do
  let persons ← mapPM (parse_person_construct ns)
    (tree.findall (create_name ns "author"))
  pure persons

/-- `_Parser.parse_contributors` (same shape as `parse_authors`). -/
def parse_contributors (ns : String) (tree : Element) : PM (List Person) := do
  let persons ← mapPM (parse_person_construct ns)
    (tree.findall (create_name ns "contributor"))
  pure persons

/-- `_Parser.parse_published`: catches `InvalidDate` only, logging it
with the kind renamed to `cause` under event `invalid-published`. -/
def parse_published (env : Env) (ns : String) (logger : Kwargs)
    (tree : Element) : PM (Option Nat) := do
  match tree.find (create_name ns "published") with
  | none => pure none
  | some el =>
    match ← pmTry (parse_date_construct env el) with
    | .ok t => pure (some t)
    | .error (.atom (.invalidDate d lineno)) => do
        let kwargs := (AtomExc.invalidDate d lineno).toLogKwargs
        let kwargs := dictSet kwargs "cause"
          ((dictGet kwargs "event").getD .null)
        let kwargs := dictSet kwargs "event" (.str "invalid-published")
        PM.log ⟨[], logger ++ kwargs⟩
        pure none
    | .error e => PM.throw e

/-- `_Parser.parse_summary`: catches `NotImplementedError` only, logging
it via the splatted-keys call and treating the summary as absent. -/
def parse_summary (env : Env) (ns : String) (logger : Kwargs)
    (tree : Element) : PM (Option Text) := do
  match tree.find (create_name ns "summary") with
  | none => pure none
  | some el =>
    match ← pmTry (parse_text_construct env el) with
    | .ok t => pure (some t)
    | .error (.atom (.notImplementedError f lineno)) => do
        PM.log ((AtomExc.notImplementedError f lineno).splatLog logger)
        pure none
    | .error e => PM.throw e

/-- `_Parser.parse_subtitle`: no handler around the text construct, so a
`NotImplementedError` (xhtml subtitle) propagates to the caller. -/
def parse_subtitle (env : Env) (ns : String) (tree : Element) :
    PM (Option Text) := do
  match tree.find (create_name ns "subtitle") with
  | none => pure none
  | some el => do
      let t ← parse_text_construct env el
      pure (some t)

/-- `_Parser.parse_link`: a missing `href` attribute is logged as
`invalid-link` and yields `None`. -/
def parse_link (logger : Kwargs) (element : Element) : PM (Option Link) :=
  match element.attr "href" with
  | none => do
      PM.log ⟨[], logger ++
        [("event", .str "invalid-link"), ("cause", .str "missing-attribute"),
         ("attribute", .str "href"),
         ("lineno", .ofLineno element.sourceline)]⟩
      pure none
  | some href =>
      pure (some ⟨href, (element.attr "rel").getD "alternate",
        element.attr "type", element.attr "hreflang", element.attr "title",
        element.attr "length"⟩)

/-- `_Parser.parse_links`: `list(filter(None, map(parse_link, findall)))`. -/
def parse_links (ns : String) (logger : Kwargs) (tree : Element) :
    PM (List Link) := do
  let results ← mapPM (parse_link logger) (tree.findall (create_name ns "link"))
  pure (results.filterMap id)

/-- `_Parser.parse_content`.  For `type` in `{text, html, xhtml}` the
local `value` is assigned from the text construct (an `AtomParserError`
is splat-logged and yields `None`); for any other `type` the local
`value` is never assigned, so the final `Content(type, src, value)`
raises `UnboundLocalError` in the source. -/
def parse_content (env : Env) (ns : String) (logger : Kwargs)
    (tree : Element) : PM (Option Content) := do
  match tree.find (create_name ns "content") with
  | none => pure none
  | some el => do
    let src := el.attr "src"
    let type := (el.attr "type").getD "text"
    if type == "text" || type == "html" || type == "xhtml" then
      match ← pmTry (parse_text_construct env el) with
      | .ok t => pure (some ⟨type, src, t.value⟩)
      | .error (.atom exc) => do
          PM.log (exc.splatLog logger)
          pure none
      | .error e => PM.throw e
    else
      PM.throw (.unboundLocalError "value")

/-- The `try` block of `_Parser.parse_entry`: the three mandatory
fields, in source order. -/
def parse_entry_required (env : Env) (ns : String) (element : Element) :
    PM (Option String × Text × Nat) := do
  let id ← parse_id ns element
  let title ← parse_title env ns element
  let updated ← parse_updated env ns element
  pure (id, title, updated)

/-- `_Parser.parse_entry`: an `AtomParserError` from the mandatory
fields is logged as `invalid-entry` with the original kind renamed to
`cause`, and the entry is dropped (`None`); any other exception, and any
exception from the optional fields below, propagates. -/
def parse_entry (env : Env) (ns : String) (logger : Kwargs)
    (element : Element) : PM (Option Entry) := do
  match ← pmTry (parse_entry_required env ns element) with
  | .error (.atom exc) => do
      let kwargs := exc.toLogKwargs
      let kwargs := dictSet kwargs "cause"
        ((dictGet kwargs "event").getD .null)
      let kwargs := dictSet kwargs "event" (.str "invalid-entry")
      PM.log ⟨[], logger ++ kwargs⟩
      pure none
  | .error e => PM.throw e
  | .ok (id, title, updated) => do
      let authors ← parse_authors ns element
      let contributors ← parse_contributors ns element
      let published ← parse_published env ns logger element
      let summary ← parse_summary env ns logger element
      let links ← parse_links ns logger element
      let content ← parse_content env ns logger element
      pure (some ⟨id, title, updated, authors, contributors, published,
        summary, links, content⟩)

/-- `_Parser.parse_entries`: each entry independently, dropping the
`None` results. -/
def parse_entries (env : Env) (ns : String) (logger : Kwargs)
    (tree : Element) : PM (List Entry) := do
  let entries ← mapPM (parse_entry env ns logger)
    (tree.findall (create_name ns "entry"))
  pure (entries.filterMap id)

/-- `_Parser.parse_feed`: root check, then the mandatory fields, then
entries, then the optional fields in argument evaluation order. -/
def parse_feed (env : Env) (ns : String) (logger : Kwargs) (tree : Tree) :
    PM Feed := do
  let element := tree.root
  if element.tag != create_name ns "feed" then
    PM.throw (.atom (.invalidRoot ("<" ++ element.tag.toStr ++ ">")
      element.sourceline))
  else do
    let id ← parse_id ns element
    let title ← parse_title env ns element
    let updated ← parse_updated env ns element
    let entries ← parse_entries env ns logger element
    let authors ← parse_authors ns element
    let contributors ← parse_contributors ns element
    let subtitle ← parse_subtitle env ns element
    let links ← parse_links ns logger element
    pure ⟨id, title, updated, entries, authors, contributors, subtitle, links⟩

/-- The namespace-resolution loop of `_Parser.parse`: the first declared
namespace URI that case-insensitively equals the canonical Atom
namespace, falling back to the canonical string itself. -/
def resolve_namespace (tree : Tree) : String :=
  match tree.nsmapValues.find? (fun n => n.toLower == ATOM_NAMESPACE) with
  | some n => n
  | none => ATOM_NAMESPACE

/-- `atom.parse_tree` with the default logger: binds `source` to the
document URL and parses the feed under the resolved namespace. -/
def parse_tree (env : Env) (tree : Tree) : PM Feed :=
  let logger : Kwargs := [("source", .ofOptStr tree.url)]
  let ns := resolve_namespace tree
  parse_feed env ns logger tree

end atom

namespace rss

def SUPPORTED_VERSIONS : List String := ["2.0", "0.92", "0.91"]

/-- `rss.Person`: name and email split out of an RFC address string. -/
structure Person where
  name : String
  email : String
  deriving DecidableEq, Repr

/-- `rss.Enclosure`: all three attributes mandatory, `length` converted
to an integer. -/
structure Enclosure where
  url : String
  length : Int
  type : String
  deriving DecidableEq, Repr

/-- `rss.Item`. -/
structure Item where
  title : Option String
  link : Option String
  description : Option String
  author : Option Person
  pub_date : Option Nat
  enclosure : Option Enclosure
  deriving DecidableEq, Repr

/-- `rss.Channel`. -/
structure Channel where
  title : Option String
  link : Option String
  description : Option String
  last_build_date : Option Nat
  items : List Item
  deriving DecidableEq, Repr

/-- `rss.RSS`.  Note: its only attributes are `version` and `channel`. -/
structure RSS where
  version : String
  channel : Channel
  deriving DecidableEq, Repr

/-- `_Parser._get_element_text` without a default: raises
`MissingElement` (with no line number) when the child is absent,
otherwise returns the child's text content.  RSS names carry no
namespace. -/
def _get_element_text (tree : Element) (name : String) :
    PM (Option String) :=
  match tree.find ⟨none, name⟩ with
  | none => PM.throw (.rss (.missingElement ("<" ++ name ++ ">") none))
  | some el => pure el.text

/-- `_Parser._get_element_text` with `default=None`. -/
def _get_element_text_default (tree : Element) (name : String) :
    Option String :=
  match tree.find ⟨none, name⟩ with
  | none => none
  | some el => el.text

/-- `_Parser.parse_item_author`: the `<author>` text, if present, is
split by `email.utils.parseaddr` into `(realname, address)`. -/
def parse_item_author (env : Env) (item : Element) : Option Person :=
  match _get_element_text_default item "author" with
  | none => none
  | some addr =>
      let p := env.parseaddr addr
      some ⟨p.1, p.2⟩

/-- `_Parser.parse_item_pub_date`: an unparseable date is logged as
`invalid-pub-date` and yields `None`; `dateutil.parser.parse(None)`
(element present without text) raises `TypeError`. -/
def parse_item_pub_date (env : Env) (logger : Kwargs) (item : Element) :
    PM (Option Nat) := do
  match item.find ⟨none, "pubDate"⟩ with
  | none => pure none
  | some el =>
    match el.text with
    | none => PM.throw .typeError
    | some s =>
      match env.dateParse s with
      | some t => pure (some t)
      | none => do
          PM.log ⟨[], logger ++
            [("event", .str "invalid-pub-date"), ("date", .str s),
             ("lineno", .ofLineno el.sourceline)]⟩
          pure none

/-- `_Parser.parse_channel_last_build_date`. -/
def parse_channel_last_build_date (env : Env) (logger : Kwargs)
    (tree : Element) : PM (Option Nat) := do
  match tree.find ⟨none, "lastBuildDate"⟩ with
  | none => pure none
  | some el =>
    match el.text with
    | none => PM.throw .typeError
    | some s =>
      match env.dateParse s with
      | some t => pure (some t)
      | none => do
          PM.log ⟨[], logger ++
            [("event", .str "invalid-last-build-date"), ("date", .str s),
             ("lineno", .ofLineno el.sourceline)]⟩
          pure none

/-- `_Parser.parse_item_enclosure`.  The attribute lookups run in the
order `url`, `length`, `type`; the first `KeyError` is logged as
`invalid-enclosure`/`missing-attribute` naming that attribute.  A
`length` that `int()` rejects, or that is negative, is logged as
`invalid-enclosure`/`invalid-length`.  Every failure yields `None`
without raising. -/
def parse_item_enclosure (env : Env) (logger : Kwargs) (item : Element) :
    PM (Option Enclosure) := do
  match item.find ⟨none, "enclosure"⟩ with
  | none => pure none
  | some element =>
    let attrs : Except String (String × String × String) :=
      match element.attr "url" with
      | none => .error "url"
      | some url =>
        match element.attr "length" with
        | none => .error "length"
        | some rawLength =>
          match element.attr "type" with
          | none => .error "type"
          | some type => .ok (url, rawLength, type)
    match attrs with
    | .error missingName => do
        PM.log ⟨[], logger ++
          [("event", .str "invalid-enclosure"),
           ("cause", .str "missing-attribute"),
           ("attribute", .str missingName),
           ("lineno", .ofLineno element.sourceline)]⟩
        pure none
    | .ok (url, rawLength, type) =>
      match env.pyInt rawLength with
      | some length =>
        if length < 0 then do
          PM.log ⟨[], logger ++
            [("event", .str "invalid-enclosure"),
             ("cause", .str "invalid-length"),
             ("length", .str rawLength),
             ("lineno", .ofLineno element.sourceline)]⟩
          pure none
        else
          pure (some ⟨url, length, type⟩)
      | none => do
          PM.log ⟨[], logger ++
            [("event", .str "invalid-enclosure"),
             ("cause", .str "invalid-length"),
             ("length", .str rawLength),
             ("lineno", .ofLineno element.sourceline)]⟩
          pure none

/-- `_Parser.parse_item`: `title` and `description` independently
optional (`description` entity-unescaped); both absent drops the item
with an `invalid-item` event; otherwise author, pubDate and enclosure
are parsed in order. -/
def parse_item (env : Env) (logger : Kwargs) (element : Element) :
    PM (Option Item) := do
  let title := _get_element_text_default element "title"
  let link := _get_element_text_default element "link"
  let description :=
    (_get_element_text_default element "description").map env.unescape
  if title.isNone && description.isNone then do
    PM.log ⟨[], logger ++
      [("event", .str "invalid-item"), ("cause", .str "missing-element"),
       ("element", .str "<title> or <description>"),
       ("lineno", .ofLineno element.sourceline)]⟩
    pure none
  else do
    let author := parse_item_author env element
    let pub_date ← parse_item_pub_date env logger element
    let enclosure ← parse_item_enclosure env logger element
    pure (some ⟨title, link, description, author, pub_date, enclosure⟩)

/-- `_Parser.parse_channel`: the three mandatory text lookups, then the
items (dropping `None` results), then `lastBuildDate`. -/
def parse_channel (env : Env) (logger : Kwargs) (tree : Tree) :
    PM Channel := do
  match tree.root.find ⟨none, "channel"⟩ with
  | none =>
      PM.throw (.rss (.missingElement "<channel>" tree.root.sourceline))
  | some element => do
      let title ← _get_element_text element "title"
      let link ← _get_element_text element "link"
      let description ← _get_element_text element "description"
      let items ← mapPM (parse_item env logger)
        (element.findall ⟨none, "item"⟩)
      let items := items.filterMap id
      let last_build_date ← parse_channel_last_build_date env logger element
      pure ⟨title, link, description, last_build_date, items⟩

/-- `_Parser.parse_rss`: root must be `<rss>` (`InvalidRoot`); a missing
`version` attribute raises `MissingAttribute`; an unsupported version
raises `VersionNotSupported`; then `rss_version` is bound on the logger
and the channel is parsed. -/
def parse_rss (env : Env) (logger : Kwargs) (tree : Tree) : PM RSS := do
  let element := tree.root
  if element.tag != (⟨none, "rss"⟩ : QName) then
    PM.throw (.rss (.invalidRoot ("<" ++ element.tag.toStr ++ ">")
      element.sourceline))
  else
    match element.attr "version" with
    | some version =>
      if !(SUPPORTED_VERSIONS.contains version) then
        PM.throw (.rss (.versionNotSupported version))
      else do
        let logger := logger ++ [("rss_version", .str version)]
        let channel ← parse_channel env logger tree
        pure ⟨version, channel⟩
    | none =>
        PM.throw (.rss (.missingAttribute
          "<rss> is missing a version attribute" element.sourceline))

/-- `rss.parse_tree` with the default logger: binds `source` to the
document URL and parses the document. -/
def parse_tree (env : Env) (tree : Tree) : PM RSS :=
  let logger : Kwargs := [("source", .ofOptStr tree.url)]
  parse_rss env logger tree

end rss

namespace feed

/-- `feed.Text`: the unified text vocabulary (`format` either `text` or
`html`). -/
structure Text where
  format : String
  value : Option String
  deriving DecidableEq, Repr

/-- `feed.Content`: the unified content vocabulary. -/
structure Content where
  format : String
  value : Option String
  source : Option String
  deriving DecidableEq, Repr

/-- The `length` field of a unified link: the raw attribute string for
Atom links, the converted integer for RSS enclosure links (the source is
untyped and simply passes either through). -/
inductive LinkLength : Type where
  | str (s : String)
  | int (n : Int)
  deriving DecidableEq, Repr

/-- `feed.Link`.  `__eq__` compares all six fields structurally.  `href`
is optional because an RSS channel or item `<link>` element may carry no
text, in which case `None` is passed through. -/
structure Link where
  href : Option String
  rel : String
  type : Option String
  hreflang : Option String
  title : Option String
  length : Option LinkLength
  deriving DecidableEq, Repr

/-- `feed._get_alternate_link`: filter to `rel='alternate'`,
`type='text/html'`; if any candidates exist, return the first with no
`hreflang`, falling back to the first candidate; otherwise fall through
(returning `None`). -/
def _get_alternate_link (links : List Link) : Option Link :=
  let alternates := links.filter
    (fun l => l.rel == "alternate" && l.type == some "text/html")
  if alternates.isEmpty then
    none
  else
    match alternates.find? (fun l => l.hreflang.isNone) with
    | some l => some l
    | none => alternates.head?

/-- Modelled from the spec: the website-derivation rule as §4.3 states
it, independently of the source's control flow — filter to
`rel=alternate` and `type=text/html` links; if none, `None`; else the
first candidate without an `hreflang`, or, if every candidate has one,
the first candidate in document order.  Used only to compare against
`_get_alternate_link`. -/
def website_spec (links : List Link) : Option Link :=
  let candidates := links.filter
    (fun l => l.rel == "alternate" && l.type == some "text/html")
  match candidates.find? (fun l => l.hreflang.isNone) with
  | some l => some l
  | none => candidates.head?

/-- The field-renaming copy an `AtomFeed`/`AtomEntry` adapter performs
on each `atom.Link`. -/
def atom_link_to_link (l : atom.Link) : Link :=
  ⟨some l.href, l.rel, l.type, l.hreflang, l.title, l.length.map .str⟩

namespace AtomFeed

/-- `AtomFeed.title`. -/
def title (f : atom.Feed) : Text := ⟨f.title.type, f.title.value⟩

/-- `AtomFeed.links`. -/
def links (f : atom.Feed) : List Link := f.links.map atom_link_to_link

/-- `Feed.website` (inherited): `_get_alternate_link(self.links)`. -/
def website (f : atom.Feed) : Option Link := _get_alternate_link (links f)

/-- `AtomFeed.entries`: one `AtomEntry` wrapper per underlying entry (the
wrapper only holds the entry, so the model returns the entries). -/
def entries (f : atom.Feed) : List atom.Entry := f.entries

end AtomFeed

namespace AtomEntry

/-- `AtomEntry.title`. -/
def title (e : atom.Entry) : Text := ⟨e.title.type, e.title.value⟩

/-- `AtomEntry.links`. -/
def links (e : atom.Entry) : List Link := e.links.map atom_link_to_link

/-- `Entry.website` (inherited): `_get_alternate_link(self.links)`. -/
def website (e : atom.Entry) : Option Link := _get_alternate_link (links e)

/-- `AtomEntry.content`: the entry's content if present (renaming
`type` to `format` and `src` to `source`), else the summary as content
with no source, else `None`. -/
def content (e : atom.Entry) : Option Content :=
  match e.content with
  | some c => some ⟨c.type, c.value, c.src⟩
  | none =>
    match e.summary with
    | some s => some ⟨s.type, s.value, none⟩
    | none => none

end AtomEntry

namespace RSSFeed

/-- `RSSFeed.title`: the channel title as a `text`-format `Text`. -/
def title (f : rss.RSS) : Text := ⟨"text", f.channel.title⟩

/-- `RSSFeed.links`: a single synthesized alternate `text/html` link to
the channel link. -/
def links (f : rss.RSS) : List Link :=
  [⟨f.channel.link, "alternate", some "text/html", none, none, none⟩]

/-- `Feed.website` (inherited): `_get_alternate_link(self.links)`. -/
def website (f : rss.RSS) : Option Link := _get_alternate_link (links f)

/-- `RSSFeed.entries` evaluates `self.feed.entries`, where `self.feed`
is the parsed `rss.RSS` object.  `RSS.__init__` assigns only `version`
and `channel` (the items live at `self.feed.channel.items`), so the
attribute lookup raises `AttributeError` for every `RSS` instance. -/
def entries (_f : rss.RSS) : Except PyErr (List rss.Item) :=
  .error (.attributeError "entries")

end RSSFeed

namespace RSSEntry

/-- `RSSEntry.title`: the item title as `text`-format `Text` when
present, else `None`. -/
def title (item : rss.Item) : Option Text :=
  match item.title with
  | some t => some ⟨"text", some t⟩
  | none => none

/-- `RSSEntry.links`: the item link (if present) first as a synthesized
alternate `text/html` link, then the enclosure (if present) as an
`enclosure`-rel link carrying its MIME type and integer length. -/
def links (item : rss.Item) : List Link :=
  (match item.link with
   | some l => [⟨some l, "alternate", some "text/html", none, none, none⟩]
   | none => []) ++
  (match item.enclosure with
   | some enc =>
       [⟨some enc.url, "enclosure", some enc.type, none, none,
         some (.int enc.length)⟩]
   | none => [])

/-- `Entry.website` (inherited): `_get_alternate_link(self.links)`. -/
def website (item : rss.Item) : Option Link :=
  _get_alternate_link (links item)

/-- `RSSEntry.content`: always a `Content` with format `html` and the
item description as value (which may be `None`); never `None` itself. -/
def content (item : rss.Item) : Content := ⟨"html", item.description, none⟩

end RSSEntry

/-- The result of the unifying adapter's parse: the format-specific
parsed object behind the corresponding wrapper class. -/
inductive UnifiedFeed : Type where
  | atomFeed (f : atom.Feed)
  | rssFeed (f : rss.RSS)
  deriving DecidableEq, Repr

/-- `feed.parse_tree`: try Atom; on `atom.InvalidRoot` (only) try RSS;
on `rss.InvalidRoot` (only) raise `NotAFeed` naming the source; every
other exception propagates unmodified. -/
def parse_tree (env : Env) (tree : Tree) : PM UnifiedFeed := do
  match ← pmTry (atom.parse_tree env tree) with
  | .ok f => pure (.atomFeed f)
  | .error (.atom (.invalidRoot _ _)) => do
      match ← pmTry (rss.parse_tree env tree) with
      | .ok r => pure (.rssFeed r)
      | .error (.rss (.invalidRoot _ _)) => PM.throw (.notAFeed tree.url)
      | .error e => PM.throw e
  | .error e => PM.throw e

end feed

/-! Concrete inputs used by the theorems below: a fixed instantiation of
the external capabilities, and small element trees mirroring the
library's own test fixtures. -/

/-- Accumulate decimal digits; any non-digit character rejects. -/
def natOfDigitsAux : List Char → Nat → Option Nat
  | [], acc => some acc
  | c :: cs, acc =>
    if c.isDigit then natOfDigitsAux cs (acc * 10 + (c.toNat - 48)) else none

/-- A nonempty all-digit character list as a number. -/
def natOfDigits : List Char → Option Nat
  | [] => none
  | cs => natOfDigitsAux cs 0

/-- A concrete stand-in for Python `int()` used by the witnesses: an
optional sign followed by decimal digits. -/
def pyIntTest (s : String) : Option Int :=
  match s.data with
  | '-' :: rest => (natOfDigits rest).map (fun n => -(n : Int))
  | '+' :: rest => (natOfDigits rest).map (fun n => (n : Int))
  | cs => (natOfDigits cs).map (fun n => (n : Int))

/-- A concrete instantiation of the external capabilities: identity
entity-decoding, a date parser that rejects exactly the string
`garbage` (yielding timestamp `1` otherwise), a trivial address
splitter, and `pyIntTest` for `int()`. -/
def testEnv : Env :=
  ⟨id, fun s => if s == "garbage" then none else some 1,
   fun s => ("", s), pyIntTest⟩

/-- Shorthand: a qualified name in the canonical Atom namespace. -/
def aQ (name : String) : QName := ⟨some atom.ATOM_NAMESPACE, name⟩

/-- Shorthand: an Atom-namespaced element with no source line. -/
def aE (name : String) (attrs : List (String × String))
    (text : Option String) (children : List Element) : Element :=
  .mk (aQ name) attrs text none children

/-- Shorthand: an unnamespaced (RSS) element with no source line. -/
def pE (name : String) (attrs : List (String × String))
    (text : Option String) (children : List Element) : Element :=
  .mk ⟨none, name⟩ attrs text none children

/-- A minimal RSS 2.0 document with one item (title only). -/
def c1Tree : Tree :=
  ⟨pE "rss" [("version", "2.0")] none
    [pE "channel" [] none
      [pE "title" [] (some "RSS Feed Title") [],
       pE "link" [] (some "http://example.com") [],
       pE "description" [] (some "RSS Feed Description") [],
       pE "item" [] none [pE "title" [] (some "RSS Entry Title") []]]],
   [], none⟩

/-- The `rss.RSS` value `c1Tree` parses to. -/
def c1RSS : rss.RSS :=
  ⟨"2.0",
   ⟨some "RSS Feed Title", some "http://example.com",
    some "RSS Feed Description", none,
    [⟨some "RSS Entry Title", none, none, none, none, none⟩]⟩⟩

/-- A document whose root is `<rss>` but which lacks the mandatory
`version` attribute. -/
def c2Tree : Tree := ⟨pE "rss" [] none [], [], none⟩

/-- The three mandatory feed children shared by the Atom fixtures. -/
def atomFeedRequired : List Element :=
  [aE "id" [] (some "feed-id") [],
   aE "title" [] (some "Feed Title") [],
   aE "updated" [] (some "2016-01-01") []]

/-- An Atom feed whose single entry carries a `<content>` element with a
MIME `type` and a `src` attribute. -/
def c3Tree : Tree :=
  ⟨aE "feed" [] none (atomFeedRequired ++
    [aE "entry" [] none
      [aE "id" [] (some "e1") [],
       aE "title" [] (some "Entry 1") [],
       aE "updated" [] (some "2016-01-02") [],
       aE "content" [("type", "image/png"),
                     ("src", "http://example.com/image.png")] none []]]),
   [], none⟩

/-- An entry-shaped element whose `<content>` has a `src` attribute and
inline text under the default `text` type. -/
def c3SrcTextEntry : Element :=
  aE "entry" [] none
    [aE "content" [("src", "http://example.com/c")] (some "body") []]

/-- An Atom feed whose `<subtitle>` carries `type="xhtml"`. -/
def c4Tree : Tree :=
  ⟨aE "feed" [] none (atomFeedRequired ++
    [aE "subtitle" [("type", "xhtml")] none []]),
   [], none⟩

/-- The xhtml subtitle element of `c4Tree`. -/
def c4SubtitleElement : Element := aE "subtitle" [("type", "xhtml")] none []

/-- An xhtml summary element. -/
def c4SummaryElement : Element := aE "summary" [("type", "xhtml")] none []

/-- An entry-shaped element containing `c4SummaryElement`. -/
def c4SummaryParent : Element := aE "entry" [] none [c4SummaryElement]

/-- An `<author>` element lacking the mandatory `<name>`. -/
def c5AuthorElement : Element :=
  aE "author" [] none [aE "email" [] (some "x@example.com") []]

/-- An Atom feed with an `<author>` lacking the mandatory `<name>`. -/
def c5Tree : Tree :=
  ⟨aE "feed" [] none (atomFeedRequired ++ [c5AuthorElement]), [], none⟩

/-- A feed-shaped element whose only author is `c5AuthorElement`. -/
def c5AuthorsParent : Element := aE "feed" [] none [c5AuthorElement]

/-- A `<link>` element lacking the mandatory `href` attribute. -/
def c5LinkElement : Element := aE "link" [("rel", "alternate")] none []

/-- A valid Atom entry element with the given id and title. -/
def c6Entry (id title : String) : Element :=
  aE "entry" [] none
    [aE "id" [] (some id) [],
     aE "title" [] (some title) [],
     aE "updated" [] (some "2016-01-02") []]

/-- An entry element missing its mandatory `<updated>`. -/
def c6BrokenEntry : Element :=
  aE "entry" [] none
    [aE "id" [] (some "e2") [], aE "title" [] (some "Entry 2") []]

/-- An Atom feed with three entries, the middle one missing `<updated>`. -/
def c6Tree : Tree :=
  ⟨aE "feed" [] none (atomFeedRequired ++
    [c6Entry "e1" "Entry 1", c6BrokenEntry, c6Entry "e3" "Entry 3"]),
   [], none⟩

/-- The parsed `atom.Entry` a valid `c6Entry` yields. -/
def c6ParsedEntry (id title : String) : atom.Entry :=
  ⟨some id, ⟨"text", some title⟩, 1, [], [], none, none, [], none⟩

/-- The feed value `c6Tree` parses to: the broken entry is dropped. -/
def c6Feed : atom.Feed :=
  ⟨some "feed-id", ⟨"text", some "Feed Title"⟩, 1,
   [c6ParsedEntry "e1" "Entry 1", c6ParsedEntry "e3" "Entry 3"],
   [], [], none, []⟩

/-- The single `invalid-entry` event logged while parsing `c6Tree`. -/
def c6Log : Log :=
  ⟨[], [("source", .null), ("event", .str "invalid-entry"),
        ("element", .str "<atom:updated>"), ("lineno", .null),
        ("cause", .str "missing-element")]⟩

/-- An `<updated>` element that is present but has no text content. -/
def c7UpdatedElement : Element := aE "updated" [] none []

/-- An entry element whose `<updated>` has no text content. -/
def c7EntryElement : Element :=
  aE "entry" [] none
    [aE "id" [] (some "e1") [],
     aE "title" [] (some "Entry 1") [],
     c7UpdatedElement]

/-- An Atom feed whose single entry has an `<updated>` element that is
present but carries no text content at all. -/
def c7Tree : Tree :=
  ⟨aE "feed" [] none (atomFeedRequired ++ [c7EntryElement]), [], none⟩

/-- An RSS item carrying a fully valid enclosure. -/
def c10Item : Element :=
  pE "item" [] none
    [pE "enclosure"
      [("url", "http://example.com/episode01.mp3"),
       ("length", "6182912"), ("type", "audio/mpeg")] none []]

/-- The enclosure element of `c10Item`. -/
def c10Enclosure : Element :=
  pE "enclosure"
    [("url", "http://example.com/episode01.mp3"),
     ("length", "6182912"), ("type", "audio/mpeg")] none []

/-! Helper lemmas: the `PM` monad operations applied to a log state, and
small reduction facts shared by the claim proofs. -/

theorem pm_bind_apply {α β : Type} (x : PM α) (f : α → PM β)
    (logs : List Log) :
    (x >>= f) logs =
      match x logs with
      | .error e => .error e
      | .ok (a, l) => f a l := rfl

theorem pm_pure_apply {α : Type} (a : α) (logs : List Log) :
    (pure a : PM α) logs = .ok (a, logs) := rfl

theorem pm_throw_apply {α : Type} (e : PyErr) (logs : List Log) :
    (PM.throw e : PM α) logs = .error e := rfl

theorem pm_log_apply (l : Log) (logs : List Log) :
    PM.log l logs = .ok ((), logs ++ [l]) := rfl

theorem pmTry_apply {α : Type} (x : PM α) (logs : List Log) :
    pmTry x logs =
      match x logs with
      | .ok (a, l) => .ok (.ok a, l)
      | .error e => .ok (.error e, logs) := rfl

theorem qname_plain_ne_namespaced (a b c : String) :
    ((⟨none, a⟩ : QName) != (⟨some c, b⟩ : QName)) = true := rfl

/-- `_get_alternate_link` computes exactly the spec's website rule. -/
theorem get_alternate_link_eq_website_spec (links : List feed.Link) :
    feed._get_alternate_link links = feed.website_spec links := by
  simp only [feed._get_alternate_link, feed.website_spec]
  cases h : links.filter
      (fun l => l.rel == "alternate" && l.type == some "text/html") with
  | nil => simp
  | cons a as => simp

/-- C9: for every list of links, the derived website is computed by
filtering to links with `rel = alternate` and `type = text/html`,
yielding `None` when no candidate exists and otherwise the first
candidate without an `hreflang`, falling back to the first candidate in
document order; and the unified feed and entry `website` properties of
both the Atom and the RSS adapters all compute exactly this rule on
their own link lists. -/
theorem C9_website_derivation :
    (∀ links : List feed.Link,
        feed._get_alternate_link links = feed.website_spec links)
  ∧ (∀ f : atom.Feed,
        feed.AtomFeed.website f = feed.website_spec (feed.AtomFeed.links f))
  ∧ (∀ e : atom.Entry,
        feed.AtomEntry.website e = feed.website_spec (feed.AtomEntry.links e))
  ∧ (∀ r : rss.RSS,
        feed.RSSFeed.website r = feed.website_spec (feed.RSSFeed.links r))
  ∧ (∀ i : rss.Item,
        feed.RSSEntry.website i = feed.website_spec (feed.RSSEntry.links i)) := by
  refine ⟨get_alternate_link_eq_website_spec, ?_, ?_, ?_, ?_⟩ <;>
    intro x <;> exact get_alternate_link_eq_website_spec _

/-- C8: the unifying adapter's parse attempts Atom parsing first; only
an Atom `InvalidRoot` causes the RSS attempt; only an RSS `InvalidRoot`
on that second attempt yields `NotAFeed` (naming the source); every
other failure of either attempt propagates unmodified and never
triggers the other format. -/
theorem C8_dispatch_characterization (env : Env) (tree : Tree)
    (logs : List Log) :
    feed.parse_tree env tree logs =
      match atom.parse_tree env tree logs with
      | .ok (f, logs2) => .ok (.atomFeed f, logs2)
      | .error (.atom (.invalidRoot _ _)) =>
        (match rss.parse_tree env tree logs with
         | .ok (r, logs2) => .ok (.rssFeed r, logs2)
         | .error (.rss (.invalidRoot _ _)) => .error (.notAFeed tree.url)
         | .error e2 => .error e2)
      | .error e => .error e := by
  unfold feed.parse_tree
  rw [pm_bind_apply, pmTry_apply]
  cases hA : atom.parse_tree env tree logs with
  | ok p => rfl
  | error e =>
    cases e with
    | atom exc =>
      cases exc with
      | invalidRoot m l =>
        show (pmTry (rss.parse_tree env tree) >>= _) logs = _
        rw [pm_bind_apply, pmTry_apply]
        cases hR : rss.parse_tree env tree logs with
        | ok p => rfl
        | error e2 =>
          cases e2 with
          | rss exc2 => cases exc2 <;> rfl
          | _ => rfl
      | _ => rfl
    | _ => rfl

/-- C1: a minimal RSS 2.0 document with one channel item parses
successfully through the unifying adapter, but reading the resulting
unified feed's `entries` property raises `AttributeError` (the source
reads `self.feed.entries` although the parsed `RSS` object only has
`version` and `channel`), instead of yielding one unified entry per
channel item as the claim states. -/
theorem C1_unified_rss_entries_crash :
    feed.parse_tree testEnv c1Tree [] = .ok (.rssFeed c1RSS, [])
      ∧ feed.RSSFeed.entries c1RSS = .error (.attributeError "entries") :=
  ⟨rfl, rfl⟩

/-- C2 (counterexample): for a document whose root is `<rss>` without a
`version` attribute, the unifying adapter's parse raises the RSS
parser's `MissingAttribute` — not `NotAFeed` naming the source, as the
claim states. -/
theorem C2_counterexample_missing_version :
    feed.parse_tree testEnv c2Tree [] =
      .error (.rss (.missingAttribute
        "<rss> is missing a version attribute" none))
    ∧ feed.parse_tree testEnv c2Tree [] ≠ .error (.notAFeed c2Tree.url) :=
  ⟨rfl, by decide⟩

/-- C2 (amended): for every document whose root element is `<rss>` but
which lacks the mandatory `version` attribute, the Atom attempt fails
with `InvalidRoot`, the RSS attempt is made and raises
`MissingAttribute`, and that exception propagates unmodified out of the
unifying adapter's top-level parse; `NotAFeed` is not raised. -/
theorem C2_amended_missing_version_propagates (env : Env) (tree : Tree)
    (logs : List Log)
    (htag : tree.root.tag = ⟨none, "rss"⟩)
    (hver : tree.root.attr "version" = none) :
    feed.parse_tree env tree logs =
      .error (.rss (.missingAttribute
        "<rss> is missing a version attribute" tree.root.sourceline)) := by
  have hAtom : atom.parse_tree env tree logs =
      .error (.atom (.invalidRoot "<rss>" tree.root.sourceline)) := by
    simp only [atom.parse_tree, atom.parse_feed, htag, atom.create_name,
      qname_plain_ne_namespaced, if_true, pm_throw_apply]
    rfl
  have hRss : rss.parse_tree env tree logs =
      .error (.rss (.missingAttribute
        "<rss> is missing a version attribute" tree.root.sourceline)) := by
    simp only [rss.parse_tree, rss.parse_rss, htag, hver]
    rfl
  unfold feed.parse_tree
  rw [pm_bind_apply, pmTry_apply, hAtom]
  show (pmTry (rss.parse_tree env tree) >>= _) logs = _
  rw [pm_bind_apply, pmTry_apply, hRss]
  rfl

/-- C2 (witness): the amended claim at the concrete versionless `<rss>`
document. -/
theorem C2_missing_version_witness :
    feed.parse_tree testEnv c2Tree [] =
      .error (.rss (.missingAttribute
        "<rss> is missing a version attribute" none)) :=
  C2_amended_missing_version_propagates testEnv c2Tree [] rfl rfl

/-- C3: parsing an Atom feed whose entry carries
`<content type="image/png" src="..."/>` does not produce a `Content`
with only `src` populated: the source's `parse_content` never assigns
the local `value` on the non-text-type path, so building
`Content(type, src, value)` raises `UnboundLocalError`, aborting the
whole feed parse.  Moreover, for a `text`-typed content element that
also carries a `src` attribute, both `src` and `value` end up populated,
contradicting the claimed exclusivity. -/
theorem C3_content_mime_type_crash :
    atom.parse_tree testEnv c3Tree [] = .error (.unboundLocalError "value")
    ∧ atom.parse_content testEnv atom.ATOM_NAMESPACE [] c3SrcTextEntry [] =
        .ok (some ⟨"text", some "http://example.com/c", some "body"⟩, []) :=
  ⟨rfl, rfl⟩

/-- C4 (counterexample): parsing an Atom feed whose `<subtitle>` carries
`type="xhtml"` does not succeed with the subtitle treated as absent:
the `NotImplementedError` raised by the text-construct parser is not
caught in `parse_subtitle` and aborts the whole feed parse. -/
theorem C4_counterexample_subtitle_xhtml_fatal :
    atom.parse_tree testEnv c4Tree [] =
      .error (.atom (.notImplementedError "xhtml text construct" none)) :=
  rfl

/-- C4 (amended): an xhtml `<subtitle>` makes `parse_subtitle` raise
`NotImplementedError`, which propagates (feed parsing fails); the xhtml
text construct is recoverable for the optional `summary` field, which is
logged and treated as absent.  Among the text-construct call sites only
`summary` (and `content`) recover; `title` and `subtitle` are fatal. -/
theorem C4_amended_subtitle_fatal_summary_recovered (env : Env)
    (ns : String) (logger : Kwargs) (tree el : Element) (logs : List Log) :
    (tree.find ⟨some ns, "subtitle"⟩ = some el →
      el.attr "type" = some "xhtml" →
      atom.parse_subtitle env ns tree logs =
        .error (.atom (.notImplementedError "xhtml text construct"
          el.sourceline)))
  ∧ (tree.find ⟨some ns, "summary"⟩ = some el →
      el.attr "type" = some "xhtml" →
      atom.parse_summary env ns logger tree logs =
        .ok (none, logs ++
          [(AtomExc.notImplementedError "xhtml text construct"
              el.sourceline).splatLog logger])) := by
  have htc : ∀ hty : el.attr "type" = some "xhtml",
      atom.parse_text_construct env el logs =
        .error (.atom (.notImplementedError "xhtml text construct"
          el.sourceline)) := by
    intro hty
    simp only [atom.parse_text_construct, hty]
    rfl
  constructor
  · intro hfind hty
    simp only [atom.parse_subtitle, atom.create_name, hfind]
    rw [pm_bind_apply, htc hty]
  · intro hfind hty
    simp only [atom.parse_summary, atom.create_name, hfind]
    rw [pm_bind_apply, pmTry_apply, htc hty]
    rfl

/-- C4 (witness): the amended claim at the concrete xhtml subtitle and
summary elements. -/
theorem C4_subtitle_summary_witness :
    atom.parse_subtitle testEnv atom.ATOM_NAMESPACE c4Tree.root [] =
      .error (.atom (.notImplementedError "xhtml text construct" none))
    ∧ atom.parse_summary testEnv atom.ATOM_NAMESPACE [] c4SummaryParent [] =
        .ok (none, [⟨["feature", "lineno"], [("event", .str "event")]⟩]) :=
  ⟨(C4_amended_subtitle_fatal_summary_recovered testEnv atom.ATOM_NAMESPACE
      [] c4Tree.root c4SubtitleElement []).1 rfl rfl,
   (C4_amended_subtitle_fatal_summary_recovered testEnv atom.ATOM_NAMESPACE
      [] c4SummaryParent c4SummaryElement []).2 rfl rfl⟩

/-- C5 (counterexample): an Atom feed containing an `<author>` without
the mandatory `<name>` does not merely get that author logged and
excluded: the `MissingElement` raised inside `parse_person_construct`
propagates through `parse_authors` and aborts the whole feed parse. -/
theorem C5_counterexample_author_missing_name :
    atom.parse_tree testEnv c5Tree [] =
      .error (.atom (.missingElement "<atom:name>" none)) :=
  rfl

/-- C5 (amended): `<link>` children are parsed independently (a link
missing `href` is logged as `invalid-link` and excluded), but an
`<author>`/`<contributor>` child missing its mandatory `<name>` raises
`MissingElement` from `parse_person_construct`, and the exception
propagates out of the person-list parse (aborting the containing feed
or entry parse) instead of being logged and excluded. -/
theorem C5_amended_person_aborts_link_recovers (ns : String)
    (logger : Kwargs) (tree element : Element) (logs : List Log) :
    (element.find ⟨some ns, "name"⟩ = none →
      atom.parse_person_construct ns element logs =
        .error (.atom (.missingElement "<atom:name>" element.sourceline)))
  ∧ (element.find ⟨some ns, "name"⟩ = none →
      tree.findall ⟨some ns, "author"⟩ = [element] →
      atom.parse_authors ns tree logs =
        .error (.atom (.missingElement "<atom:name>" element.sourceline)))
  ∧ (element.attr "href" = none →
      atom.parse_link logger element logs =
        .ok (none, logs ++ [⟨[], logger ++
          [("event", .str "invalid-link"),
           ("cause", .str "missing-attribute"),
           ("attribute", .str "href"),
           ("lineno", .ofLineno element.sourceline)]⟩])) := by
  have hperson : ∀ hname : element.find ⟨some ns, "name"⟩ = none,
      atom.parse_person_construct ns element logs =
        .error (.atom (.missingElement "<atom:name>" element.sourceline)) := by
    intro hname
    have hget : atom._get_element_text ns element "name" logs =
        .error (.atom (.missingElement "<atom:name>" element.sourceline)) := by
      simp only [atom._get_element_text, atom.create_name, hname]
      rfl
    unfold atom.parse_person_construct
    rw [pm_bind_apply, hget]
  refine ⟨hperson, ?_, ?_⟩
  · intro hname hfindall
    unfold atom.parse_authors
    rw [pm_bind_apply]
    simp only [atom.create_name, hfindall]
    unfold mapPM
    rw [pm_bind_apply, hperson hname]
  · intro hhref
    simp only [atom.parse_link, hhref]
    rw [pm_bind_apply, pm_log_apply]
    rfl

/-- C5 (witness): the amended claim at the concrete author and link
elements. -/
theorem C5_person_link_witness :
    atom.parse_person_construct atom.ATOM_NAMESPACE c5AuthorElement [] =
      .error (.atom (.missingElement "<atom:name>" none))
    ∧ atom.parse_authors atom.ATOM_NAMESPACE c5AuthorsParent [] =
        .error (.atom (.missingElement "<atom:name>" none))
    ∧ atom.parse_link [] c5LinkElement [] =
        .ok (none, [⟨[],
          [("event", .str "invalid-link"),
           ("cause", .str "missing-attribute"),
           ("attribute", .str "href"), ("lineno", .null)]⟩]) :=
  ⟨(C5_amended_person_aborts_link_recovers atom.ATOM_NAMESPACE []
      c5AuthorsParent c5AuthorElement []).1 rfl,
   (C5_amended_person_aborts_link_recovers atom.ATOM_NAMESPACE []
      c5AuthorsParent c5AuthorElement []).2.1 rfl rfl,
   (C5_amended_person_aborts_link_recovers atom.ATOM_NAMESPACE []
      c5AuthorsParent c5LinkElement []).2.2 rfl⟩

/-- C6: when parsing any of an entry's three mandatory fields raises an
`AtomParserError`, `parse_entry` yields no entry and logs a single
`invalid-entry` event whose `cause` key carries the original failure's
event kind (the kwargs being the original ones with `cause` appended and
`event` overwritten); and, concretely, a feed whose middle entry lacks
`<updated>` still parses successfully, keeping the two sibling entries
and logging exactly that one `invalid-entry` event. -/
theorem C6_entry_recovery_and_siblings (env : Env) (ns : String)
    (logger : Kwargs) (element : Element) (logs : List Log) (exc : AtomExc) :
    (atom.parse_entry_required env ns element logs = .error (.atom exc) →
      atom.parse_entry env ns logger element logs =
        .ok (none, logs ++ [⟨[], logger ++
          dictSet (dictSet exc.toLogKwargs "cause"
              ((dictGet exc.toLogKwargs "event").getD .null))
            "event" (.str "invalid-entry")⟩]))
  ∧ atom.parse_tree testEnv c6Tree [] = .ok (c6Feed, [c6Log]) := by
  constructor
  · intro hreq
    unfold atom.parse_entry
    rw [pm_bind_apply, pmTry_apply, hreq]
    rfl
  · rfl

/-- C6 (witness): the entry-recovery equation at the concrete entry
missing its `<updated>` element, under the default bound logger. -/
theorem C6_entry_recovery_witness :
    atom.parse_entry testEnv atom.ATOM_NAMESPACE [("source", LogValue.null)]
      c6BrokenEntry [] = .ok (none, [c6Log]) :=
  (C6_entry_recovery_and_siblings testEnv atom.ATOM_NAMESPACE
    [("source", LogValue.null)] c6BrokenEntry []
    (.missingElement "<atom:updated>" none)).1 rfl

/-- C7: an `<updated>` element that is present but has no text content
makes `parse_updated` raise `TypeError` (from
`dateutil.parser.parse(None)`), which is not an `AtomParserError`: it is
not turned into `InvalidDate`, it escapes the `except AtomParserError`
entry-recovery handler, and — concretely — it aborts the entire feed
parse instead of merely dropping the entry. -/
theorem C7_updated_without_text_typeerror (env : Env) (ns : String)
    (tree el : Element) (logs : List Log) :
    (tree.find ⟨some ns, "updated"⟩ = some el → el.text = none →
      atom.parse_updated env ns tree logs = .error .typeError)
  ∧ atom.parse_tree testEnv c7Tree [] = .error .typeError := by
  constructor
  · intro hfind htext
    simp only [atom.parse_updated, atom.create_name, hfind, htext]
    rfl
  · rfl

/-- C7 (witness): the `TypeError` equation at the concrete entry whose
`<updated>` carries no text. -/
theorem C7_updated_without_text_witness :
    atom.parse_updated testEnv atom.ATOM_NAMESPACE c7EntryElement [] =
      .error .typeError :=
  (C7_updated_without_text_typeerror testEnv atom.ATOM_NAMESPACE
    c7EntryElement c7UpdatedElement []).1 rfl rfl

/-- `Except.isOk`, specialised locally. -/
def exceptIsOk {ε α : Type} : Except ε α → Bool
  | .ok _ => true
  | .error _ => false

/-- C10: for an item with an `<enclosure>` element — a missing `url`,
`length` or `type` attribute (checked in that order) yields no enclosure
and one `invalid-enclosure`/`missing-attribute` event naming the missing
attribute; a `length` rejected by `int()` or negative yields no
enclosure and an `invalid-enclosure`/`invalid-length` event; otherwise
the enclosure preserves `url` and `type` exactly with the length
converted to a non-negative integer; and the enclosure parse always
returns (it never raises), so failures stay local to the item. -/
theorem C10_enclosure_parsing (env : Env) (logger : Kwargs)
    (item el : Element) (logs : List Log)
    (hfind : item.find ⟨none, "enclosure"⟩ = some el) :
    (el.attr "url" = none →
      rss.parse_item_enclosure env logger item logs =
        .ok (none, logs ++ [⟨[], logger ++
          [("event", .str "invalid-enclosure"),
           ("cause", .str "missing-attribute"),
           ("attribute", .str "url"),
           ("lineno", .ofLineno el.sourceline)]⟩]))
  ∧ (∀ url : String, el.attr "url" = some url → el.attr "length" = none →
      rss.parse_item_enclosure env logger item logs =
        .ok (none, logs ++ [⟨[], logger ++
          [("event", .str "invalid-enclosure"),
           ("cause", .str "missing-attribute"),
           ("attribute", .str "length"),
           ("lineno", .ofLineno el.sourceline)]⟩]))
  ∧ (∀ url len : String, el.attr "url" = some url →
      el.attr "length" = some len → el.attr "type" = none →
      rss.parse_item_enclosure env logger item logs =
        .ok (none, logs ++ [⟨[], logger ++
          [("event", .str "invalid-enclosure"),
           ("cause", .str "missing-attribute"),
           ("attribute", .str "type"),
           ("lineno", .ofLineno el.sourceline)]⟩]))
  ∧ (∀ url len ty : String, el.attr "url" = some url →
      el.attr "length" = some len → el.attr "type" = some ty →
      env.pyInt len = none →
      rss.parse_item_enclosure env logger item logs =
        .ok (none, logs ++ [⟨[], logger ++
          [("event", .str "invalid-enclosure"),
           ("cause", .str "invalid-length"),
           ("length", .str len),
           ("lineno", .ofLineno el.sourceline)]⟩]))
  ∧ (∀ (url len ty : String) (n : Int), el.attr "url" = some url →
      el.attr "length" = some len → el.attr "type" = some ty →
      env.pyInt len = some n → n < 0 →
      rss.parse_item_enclosure env logger item logs =
        .ok (none, logs ++ [⟨[], logger ++
          [("event", .str "invalid-enclosure"),
           ("cause", .str "invalid-length"),
           ("length", .str len),
           ("lineno", .ofLineno el.sourceline)]⟩]))
  ∧ (∀ (url len ty : String) (n : Int), el.attr "url" = some url →
      el.attr "length" = some len → el.attr "type" = some ty →
      env.pyInt len = some n → 0 ≤ n →
      rss.parse_item_enclosure env logger item logs =
        .ok (some ⟨url, n, ty⟩, logs))
  ∧ exceptIsOk (rss.parse_item_enclosure env logger item logs) = true := by
  refine ⟨?_, ?_, ?_, ?_, ?_, ?_, ?_⟩
  · intro hurl
    simp only [rss.parse_item_enclosure, hfind, hurl]
    rfl
  · intro url hurl hlen
    simp only [rss.parse_item_enclosure, hfind, hurl, hlen]
    rfl
  · intro url len hurl hlen hty
    simp only [rss.parse_item_enclosure, hfind, hurl, hlen, hty]
    rfl
  · intro url len ty hurl hlen hty hpy
    simp only [rss.parse_item_enclosure, hfind, hurl, hlen, hty, hpy]
    rfl
  · intro url len ty n hurl hlen hty hpy hneg
    simp only [rss.parse_item_enclosure, hfind, hurl, hlen, hty, hpy]
    rw [if_pos hneg]
    rfl
  · intro url len ty n hurl hlen hty hpy hpos
    simp only [rss.parse_item_enclosure, hfind, hurl, hlen, hty, hpy]
    rw [if_neg (not_lt.mpr hpos)]
    rfl
  · cases h1 : el.attr "url" with
    | none => simp only [rss.parse_item_enclosure, hfind, h1]; rfl
    | some url =>
      cases h2 : el.attr "length" with
      | none => simp only [rss.parse_item_enclosure, hfind, h1, h2]; rfl
      | some len =>
        cases h3 : el.attr "type" with
        | none => simp only [rss.parse_item_enclosure, hfind, h1, h2, h3]; rfl
        | some ty =>
          cases h4 : env.pyInt len with
          | none =>
            simp only [rss.parse_item_enclosure, hfind, h1, h2, h3, h4]; rfl
          | some n =>
            simp only [rss.parse_item_enclosure, hfind, h1, h2, h3, h4]
            split <;> rfl

/-- C10 (witness): a fully valid enclosure round-trips `url` and `type`
exactly with its length converted to the integer `6182912`. -/
theorem C10_enclosure_witness :
    rss.parse_item_enclosure testEnv [] c10Item [] =
      .ok (some ⟨"http://example.com/episode01.mp3", 6182912, "audio/mpeg"⟩,
        []) :=
  (C10_enclosure_parsing testEnv [] c10Item c10Enclosure [] rfl).2.2.2.2.2.1
    "http://example.com/episode01.mp3" "6182912" "audio/mpeg" 6182912
    rfl rfl rfl (by decide) (by decide)

end AtomRSS
